import Mathlib

/-!
Shallow embedding of the rent-moment backend (Express + Mongoose).

Monetary values (JS numbers) are modelled as rationals `ℚ`; document ids
(Mongo ObjectIds) as `String`; dates as `Int` timestamps; status fields,
stored as strings in the documents, as `String` with the schema enums as
membership predicates.  Fallible route handlers return `Except`.
-/

namespace RentMoment

abbrev Id := String

/-- Schema enum of `orderStatus` (models/Order.js). -/
def orderStatusEnum : List String :=
  ["Pending", "Confirmed", "Processing", "Shipped", "Delivered", "Returned", "Cancelled"]

/-- Schema enum of `paymentStatus` (models/Order.js). -/
def paymentStatusEnum : List String := ["Pending", "Paid", "Failed", "Refunded"]

/-- One entry of a product's embedded `sizes` array (models/Product.js). -/
structure SizeEntry where
  size : String
  isAvailable : Bool
  quantity : Nat
deriving DecidableEq, Repr

/-- The fields of a Product document that the routes and hooks under
verification read or write (models/Product.js).  `category` is the legacy
single reference, `categories` the multi-reference list; `slug` is absent
until assigned (the schema index is sparse). -/
structure Product where
  id : Id
  name : String
  categories : List Id
  category : Option Id
  price : ℚ
  sizes : List SizeEntry
  isAvailable : Bool
  isFeatured : Bool
  slug : Option String
  views : Nat
deriving DecidableEq, Repr

/-- One embedded order item (models/Order.js): the product reference plus
the price snapshot taken at creation time. -/
structure OrderItem where
  product : Id
  quantity : Nat
  rentalDuration : Nat
  price : ℚ
  totalPrice : ℚ
deriving DecidableEq, Repr

/-- The fields of an Order document used by the verified routes
(models/Order.js).  `user` is optional: `none` for guest orders. -/
structure Order where
  id : Id
  user : Option Id
  isGuestOrder : Bool
  items : List OrderItem
  paymentStatus : String
  orderStatus : String
  subtotal : ℚ
  shippingCost : ℚ
  tax : ℚ
  totalAmount : ℚ
  rentalStartDate : Int
  rentalEndDate : Int
  needDate : Int
  notes : Option String
  adminNotes : Option String
deriving DecidableEq, Repr

/-- The verified identity attached to a request by the auth middleware:
`req.user.id` and `req.user.role`. -/
structure Requester where
  id : Id
  role : String
deriving DecidableEq, Repr

/-! ## Catalog model: pre-save hooks (models/Product.js) -/

/-- First `pre('save')` hook of the product schema: if `categories` is
non-empty, set `category := categories[0]`.  Runs on every save,
unconditionally. -/
def categorySyncHook (p : Product) : Product :=
  match p.categories with
  | [] => p
  | c :: _ => { p with category := some c }

/-- `[^a-z0-9]` test used by the slug regexes: `true` exactly on lowercase
ASCII letters and digits. -/
def isSlugChar (c : Char) : Bool :=
  ('a' ≤ c && c ≤ 'z') || ('0' ≤ c && c ≤ '9')

/-- `.replace(/[^a-z0-9]+/g, '-')` over the character list: each maximal
run of non-alphanumeric characters becomes a single hyphen.  The boolean
argument records whether the previous character belonged to such a run. -/
def collapseRuns : Bool → List Char → List Char
  | _, [] => []
  | inRun, c :: rest =>
    if isSlugChar c then c :: collapseRuns false rest
    else if inRun then collapseRuns true rest
    else '-' :: collapseRuns true rest

/-- `.replace(/(^-|-$)/g, '')`: removes one leading and one trailing
hyphen (after run-collapsing, leading/trailing hyphens are single). -/
def trimHyphens (l : List Char) : List Char :=
  let l1 := if l.head? = some '-' then l.tail else l
  if l1.getLast? = some '-' then l1.dropLast else l1

/-- Base slug derivation shared by the Category and Product save hooks:
`name.toLowerCase().replace(/[^a-z0-9]+/g, '-').replace(/(^-|-$)/g, '')`. -/
def slugify (name : String) : String :=
  String.mk (trimHyphens (collapseRuns false (name.data.map Char.toLower)))

/-- Decimal digit characters of `n`, most significant first; structural in
the fuel so that the kernel can evaluate it (`fuel = n` suffices). -/
def toDecimal : Nat → Nat → List Char
  | 0, _ => []
  | fuel + 1, n => if n = 0 then [] else toDecimal fuel (n / 10) ++ [Nat.digitChar (n % 10)]

/-- Decimal rendering of a natural number, as JS template interpolation
renders the probe counter in `${baseSlug}-${counter}`. -/
def natRepr (n : Nat) : String :=
  if n = 0 then "0" else String.mk (toDecimal n n)

/-- The `while (true)` collision-probe loop of the product slug hook:
starting from `slug` with the given `counter`, return the current
candidate if no other document holds it, else retry with
`baseSlug + "-" + counter`.  The JS loop has no fuel; it terminates
because the probed candidates are pairwise distinct and `taken` is
finite, which the fuel chosen at the call site makes explicit. -/
def probeSlug (taken : List String) (base : String) : Nat → String → Nat → String
  | 0, slug, _ => slug
  | fuel + 1, slug, counter =>
    if slug ∈ taken then probeSlug taken base fuel (base ++ "-" ++ natRepr counter) (counter + 1)
    else slug

/-- Slug collision resolution of the product save hook: probe `base`,
`base-1`, `base-2`, … against the slugs `taken` by other products and
keep the first free candidate.  `taken.length + 1` probes always reach a
free candidate, so the fuelled loop equals the unbounded JS loop. -/
def findUniqueSlug (taken : List String) (base : String) : String :=
  probeSlug taken base (taken.length + 1) base 1

/-- The candidate probed at position `i`: `base` itself, then
`base-1`, `base-2`, …. -/
def slugCand (base : String) : Nat → String
  | 0 => base
  | i + 1 => base ++ "-" ++ natRepr (i + 1)

/-- Second `pre('save')` hook of the product schema: when the `name` path
was modified on this save, derive the base slug from the name and store
the first collision-free candidate; otherwise leave the document alone.
`taken` holds the slugs of the other product documents (the probe's query
excludes the saving document's own `_id`). -/
def slugHook (taken : List String) (nameModified : Bool) (p : Product) : Product :=
  if nameModified then
    { p with slug := some (findUniqueSlug taken (slugify p.name)) }
  else p

/-- Slugs held by products other than `p` (`_id: { $ne: this._id }`). -/
def otherSlugs (store : List Product) (p : Product) : List String :=
  (store.filter (fun q => q.id ≠ p.id)).filterMap (fun q => q.slug)

/-- A full product save: both `pre('save')` hooks in registration order
(category sync, then slug generation), applied to the document that is
then persisted. -/
def productSave (taken : List String) (nameModified : Bool) (p : Product) : Product :=
  slugHook taken nameModified (categorySyncHook p)

/-! ## Product routes (routes/products.js) -/

inductive ProductError
  | emptyCategories
  | categoryNotFound (id : Id)
deriving DecidableEq, Repr

/-- `categories.filter(categoryId => categoryId && categoryId !== null &&
categoryId !== undefined)`: entries arrive as possibly-null values
(`Option Id`); the JS truthiness test drops `null`/`undefined` entries
(modelled as `none`) and also the falsy empty string. -/
def filterCategories (cats : List (Option Id)) : List Id :=
  cats.filterMap (fun c =>
    match c with
    | none => none
    | some s => if s = "" then none else some s)

/-- The categories-handling block shared by POST `/api/products` and PUT
`/api/products/:id`: filter out null/undefined entries, reject when the
result is empty, then reject on the first category id that does not
exist. -/
def validateCategories (catExists : Id → Bool) (cats : List (Option Id)) :
    Except ProductError (List Id) :=
  let filtered := filterCategories cats
  if filtered = [] then .error .emptyCategories
  else
    match filtered.find? (fun c => !catExists c) with
    | some c => .error (.categoryNotFound c)
    | none => .ok filtered

/-- POST `/api/products`: after body-shape validation, validate the
categories list, build the new document and run the save hooks (`taken`
is the set of slugs already held by other products; the name of a new
document is always a modified path, so the slug hook fires). -/
def createProduct (catExists : Id → Bool) (taken : List String) (newId : Id)
    (name : String) (cats : List (Option Id)) (price : ℚ) (sizes : List SizeEntry)
    (isFeatured : Bool) : Except ProductError Product :=
  match validateCategories catExists cats with
  | .error e => .error e
  | .ok filtered =>
    .ok (productSave taken true
      { id := newId, name := name, categories := filtered, category := none
        price := price, sizes := sizes, isAvailable := true
        isFeatured := isFeatured, slug := none, views := 0 })

/-- The update document PUT `/api/products/:id` passes to
`findByIdAndUpdate`: exactly the fields present in `req.body` (absent
fields are left untouched).  `category` and `slug` are carried because
`findByIdAndUpdate(req.body)` would persist them verbatim if a client
sent them. -/
structure UpdateBody where
  name : Option String := none
  categories : Option (List (Option Id)) := none
  category : Option (Option Id) := none
  price : Option ℚ := none
  isAvailable : Option Bool := none
  slug : Option (Option String) := none
deriving Repr

/-- `Product.findByIdAndUpdate(id, req.body, {new: true, runValidators:
true})`: a direct field-wise update of the stored document.  Mongoose
update queries do not run the `pre('save')` hooks, so neither the
category sync nor the slug generation happens here. -/
def findByIdAndUpdate (p : Product) (cats : Option (List Id)) (b : UpdateBody) : Product :=
  { p with
    name := b.name.getD p.name
    categories := cats.getD p.categories
    category := b.category.getD p.category
    price := b.price.getD p.price
    isAvailable := b.isAvailable.getD p.isAvailable
    slug := b.slug.getD p.slug }

/-- PUT `/api/products/:id`: after body-shape validation, when a
categories list is present filter/validate it, then apply the update
document directly with `findByIdAndUpdate`. -/
def updateProduct (catExists : Id → Bool) (p : Product) (b : UpdateBody) :
    Except ProductError Product :=
  match b.categories with
  | none => .ok (findByIdAndUpdate p none b)
  | some cats =>
    match validateCategories catExists cats with
    | .error e => .error e
    | .ok filtered => .ok (findByIdAndUpdate p (some filtered) b)

/-- The query parameters of GET `/api/products` that build the Mongo
filter (the free-text `$text` search and the case-insensitive colour
regex are not modelled; the claims under verification do not use them). -/
structure ProductQuery where
  category : Option Id := none
  minPrice : Option ℚ := none
  maxPrice : Option ℚ := none
  size : Option String := none
  featured : Bool := false

/-- Whether a product document matches the filter object built by GET
`/api/products`: the base `{ isAvailable: true }` plus, when a category
is supplied, `$or: [{ category }, { categories }]` — equality on the
legacy single reference or membership in the multi-category array —
plus the optional price range, embedded size match and featured flag. -/
def matchesProductFilter (q : ProductQuery) (p : Product) : Bool :=
  p.isAvailable &&
  (match q.category with
   | none => true
   | some c => p.category = some c || (c ∈ p.categories : Bool)) &&
  (match q.minPrice with
   | none => true
   | some m => m ≤ p.price) &&
  (match q.maxPrice with
   | none => true
   | some m => p.price ≤ m) &&
  (match q.size with
   | none => true
   | some s => p.sizes.any (fun e => e.size = s)) &&
  (!q.featured || p.isFeatured)

/-- GET `/api/products` result set (before sort/pagination): the stored
products matching the built filter. -/
def listProducts (store : List Product) (q : ProductQuery) : List Product :=
  store.filter (matchesProductFilter q)

/-- GET `/api/products/category/:categoryId` result set: `$or` of the
legacy single reference and multi-category membership, restricted to
available products. -/
def listProductsByCategory (store : List Product) (c : Id) : List Product :=
  store.filter (fun p =>
    (p.category = some c || (c ∈ p.categories : Bool)) && p.isAvailable)

/-! ## Order engine (routes/orders.js) -/

inductive CreateOrderError
  | startDateInPast
  | endDateNotAfterStart
  | needDateInPast
  | productNotFound (id : Id)
  | productNotAvailable (name : String)
deriving DecidableEq, Repr

/-- One entry of the request's `items` array (already shape-validated:
quantity ≥ 1, rentalDuration ≥ 1). -/
structure OrderItemInput where
  product : Id
  quantity : Nat
  rentalDuration : Nat
deriving DecidableEq, Repr

/-- The three date business rules, in source order: reject a start date
strictly before today (`today` has time-of-day zeroed), an end date not
strictly after the start date, and a need date before today. -/
def validateOrderDates (today start end_ need : Int) : Option CreateOrderError :=
  if start < today then some .startDateInPast
  else if end_ ≤ start then some .endDateNotAfterStart
  else if need < today then some .needDateInPast
  else none

/-- The item loop of order creation: look up each product, reject on a
missing or unavailable one, price the line as
`product.price * item.quantity * 1` (the rental duration is overridden
to the fixed 1 day) and accumulate the subtotal. -/
def processItems (lookup : Id → Option Product) :
    List OrderItemInput → Except CreateOrderError (List OrderItem × ℚ)
  | [] => .ok ([], 0)
  | item :: rest =>
    match lookup item.product with
    | none => .error (.productNotFound item.product)
    | some product =>
      if !product.isAvailable then .error (.productNotAvailable product.name)
      else
        let itemTotal := product.price * (item.quantity : ℚ) * 1
        match processItems lookup rest with
        | .error e => .error e
        | .ok (tailItems, tailSubtotal) =>
          .ok ({ product := product.id, quantity := item.quantity, rentalDuration := 1
                 price := product.price, totalPrice := itemTotal } :: tailItems,
               itemTotal + tailSubtotal)

/-- `subtotal > 100 ? 0 : 10` — free shipping over $100. -/
def shippingFor (subtotal : ℚ) : ℚ := if subtotal > 100 then 0 else 10

/-- `subtotal * 0.08` — 8% tax. -/
def taxFor (subtotal : ℚ) : ℚ := subtotal * 0.08

/-- Shared body of POST `/api/orders` and POST `/api/orders/guest` after
body-shape validation: date business rules, item validation and pricing,
then the document handed to `new Order(...)` (statuses take their schema
defaults). -/
def createOrderCore (lookup : Id → Option Product) (today : Int) (newId : Id)
    (user : Option Id) (isGuest : Bool) (items : List OrderItemInput)
    (start end_ need : Int) (notes : Option String) : Except CreateOrderError Order :=
  match validateOrderDates today start end_ need with
  | some e => .error e
  | none =>
    match processItems lookup items with
    | .error e => .error e
    | .ok (orderItems, subtotal) =>
      .ok { id := newId, user := user, isGuestOrder := isGuest, items := orderItems
            paymentStatus := "Pending", orderStatus := "Pending"
            subtotal := subtotal
            shippingCost := shippingFor subtotal
            tax := taxFor subtotal
            totalAmount := subtotal + shippingFor subtotal + taxFor subtotal
            rentalStartDate := start, rentalEndDate := end_, needDate := need
            notes := notes, adminNotes := none }

/-- POST `/api/orders` (authenticated): `user := req.user.id`. -/
def createOrder (lookup : Id → Option Product) (today : Int) (newId : Id)
    (userId : Id) (items : List OrderItemInput) (start end_ need : Int)
    (notes : Option String) : Except CreateOrderError Order :=
  createOrderCore lookup today newId (some userId) false items start end_ need notes

/-- POST `/api/orders/guest`: `user := null`, `isGuestOrder := true`. -/
def createGuestOrder (lookup : Id → Option Product) (today : Int) (newId : Id)
    (items : List OrderItemInput) (start end_ need : Int)
    (notes : Option String) : Except CreateOrderError Order :=
  createOrderCore lookup today newId none true items start end_ need notes

inductive OrderAccessError
  | notFound
  | accessDenied
  | notCancellable
  | internalError
deriving DecidableEq, Repr

/-- GET `/api/orders/:id` on a found order.  The ownership test is
`req.user.role !== 'admin' && order.user._id.toString() !== req.user.id`:
the admin check short-circuits first; for a non-admin, a guest order's
null `user` is dereferenced and the thrown TypeError lands in the
catch-all 500 branch (`internalError`), never in the 403 branch. -/
def getOrderById (requester : Requester) (order : Order) : Except OrderAccessError Order :=
  if requester.role ≠ "admin" then
    match order.user with
    | none => .error .internalError
    | some uid =>
      if uid ≠ requester.id then .error .accessDenied
      else .ok order
  else .ok order

/-- Second half of PUT `/api/orders/:id/cancel`: the status gate
`['Pending','Confirmed'].includes(order.orderStatus)`, then the
mutation: status becomes Cancelled and, when the actor is an admin,
`adminNotes = req.body.adminNotes || 'Order cancelled by admin'` (the JS
`||` also replaces an empty string). -/
def cancelOrderStatusStep (requester : Requester) (order : Order)
    (bodyAdminNotes : Option String) : Except OrderAccessError Order :=
  if ¬ (order.orderStatus ∈ ["Pending", "Confirmed"]) then .error .notCancellable
  else
    let note :=
      match bodyAdminNotes with
      | none => "Order cancelled by admin"
      | some s => if s = "" then "Order cancelled by admin" else s
    let o1 := { order with orderStatus := "Cancelled" }
    let o2 :=
      if requester.role = "admin" then { o1 with adminNotes := some note }
      else o1
    .ok o2

/-- PUT `/api/orders/:id/cancel` on a found order: the ownership test
`req.user.role !== 'admin' && order.user.toString() !== req.user.id`
(for a non-admin, a guest order's null `user` is dereferenced and the
thrown TypeError lands in the catch-all 500 branch), then the status
gate and mutation of `cancelOrderStatusStep`. -/
def cancelOrder (requester : Requester) (order : Order) (bodyAdminNotes : Option String) :
    Except OrderAccessError Order :=
  if requester.role ≠ "admin" then
    match order.user with
    | none => .error .internalError
    | some uid =>
      if uid ≠ requester.id then .error .accessDenied
      else cancelOrderStatusStep requester order bodyAdminNotes
  else cancelOrderStatusStep requester order bodyAdminNotes

/-- The stored state of the order after a cancellation request: the
mutated document on success, the untouched one on any error. -/
def cancelResultState (requester : Requester) (order : Order)
    (bodyAdminNotes : Option String) : Order :=
  match cancelOrder requester order bodyAdminNotes with
  | .ok o => o
  | .error _ => order

/-- The `$match` stage of the revenue aggregation in GET
`/api/orders/stats/summary`: `orderStatus: { $in: ['Delivered', 'Paid'] }`
— a membership test on the `orderStatus` field alone. -/
def revenueMatch (o : Order) : Bool :=
  o.orderStatus ∈ ["Delivered", "Paid"]

/-- Total revenue computed by the stats endpoint: sum of `totalAmount`
over the orders passing the `$match` stage. -/
def totalRevenue (orders : List Order) : ℚ :=
  ((orders.filter revenueMatch).map (fun o => o.totalAmount)).sum

/-- Modelled from the spec sentence of claim C6 (for comparison with the
code's `totalRevenue`): revenue summed over orders whose `orderStatus` is
Delivered **or** whose `paymentStatus` is Paid. -/
def specRevenue (orders : List Order) : ℚ :=
  ((orders.filter (fun o =>
      o.orderStatus = "Delivered" || o.paymentStatus = "Paid")).map
    (fun o => o.totalAmount)).sum

/-! ## Concrete fixtures for witnesses -/

/-- Fixture: a concrete product for witnesses. -/
def exProduct : Product :=
  { id := "p1", name := "Red Dress", categories := ["c1", "c2"], category := none
    price := 40, sizes := [], isAvailable := true, isFeatured := false
    slug := none, views := 0 }

/-- Fixture: a second product with the same name. -/
def exProduct2 : Product :=
  { id := "p2", name := "Red Dress", categories := ["c1"], category := none
    price := 70, sizes := [], isAvailable := true, isFeatured := false
    slug := none, views := 0 }

/-- Fixture: `exProduct` as persisted by its first save. -/
def exSaved : Product := productSave (otherSlugs [] exProduct) true exProduct

/-- Fixture: `exProduct2` saved when `exSaved` is already stored. -/
def exSaved2 : Product := productSave (otherSlugs [exSaved] exProduct2) true exProduct2

/-- What the item loop guarantees per line, relating an input item to the
stored order item built from it. -/
def ItemSpec (lookup : Id → Option Product) (inp : OrderItemInput) (it : OrderItem) : Prop :=
  ∃ p, lookup inp.product = some p ∧ p.isAvailable = true ∧ it.product = p.id ∧
    it.price = p.price ∧ it.quantity = inp.quantity ∧ it.rentalDuration = 1 ∧
    it.totalPrice = p.price * (inp.quantity : ℚ) * 1

/-- Fixture: a concrete pending order owned by user u1. -/
def exOrder : Order :=
  { id := "o1", user := some "u1", isGuestOrder := false, items := []
    paymentStatus := "Pending", orderStatus := "Pending"
    subtotal := 110, shippingCost := 0, tax := 44/5, totalAmount := 594/5
    rentalStartDate := 10, rentalEndDate := 11, needDate := 10
    notes := none, adminNotes := none }

/-- Fixture: product lookup over the two fixture products. -/
def exLookup : Id → Option Product := fun i =>
  if i = "p1" then some exProduct else if i = "p2" then some exProduct2 else none

/-- Fixture: the two request items of the spec's pricing example; the
client-supplied durations 3 and 5 are overridden to 1. -/
def exItems : List OrderItemInput :=
  [{ product := "p1", quantity := 1, rentalDuration := 3 },
   { product := "p2", quantity := 1, rentalDuration := 5 }]

/-- Fixture: the order the pricing example should produce. -/
def exCreatedOrder : Order :=
  { id := "o1", user := some "u1", isGuestOrder := false
    items := [{ product := "p1", quantity := 1, rentalDuration := 1, price := 40, totalPrice := 40 },
              { product := "p2", quantity := 1, rentalDuration := 1, price := 70, totalPrice := 70 }]
    paymentStatus := "Pending", orderStatus := "Pending"
    subtotal := 110, shippingCost := 0, tax := 44/5, totalAmount := 594/5
    rentalStartDate := 10, rentalEndDate := 11, needDate := 10
    notes := none, adminNotes := none }

/-- Fixture: a pending but paid order. -/
def exPaidOrder : Order := { exOrder with paymentStatus := "Paid", totalAmount := 50 }

/-- Fixture: a delivered order. -/
def exDelivered : Order := { exOrder with orderStatus := "Delivered", totalAmount := 30 }

/-- Fixture: an update body renaming the product and replacing its
categories, carrying no `category` or `slug` field. -/
def exBody : UpdateBody := { name := some "Blue Gown", categories := some [some "c2"] }

/-- Fixture: a guest order (null user reference, guest flag set). -/
def exGuestOrder : Order := { exOrder with user := none, isGuestOrder := true }

/-! ### Slug-probe lemmas -/

theorem toDecimal_eq : ∀ fuel n, n ≤ fuel →
    toDecimal fuel n = ((Nat.digits 10 n).map Nat.digitChar).reverse := by
  intro fuel
  induction fuel with
  | zero =>
    intro n hn
    interval_cases n
    simp [toDecimal]
  | succ fuel ih =>
    intro n hn
    by_cases h0 : n = 0
    · simp [toDecimal, h0]
    · have hdig : Nat.digits 10 n = n % 10 :: Nat.digits 10 (n / 10) :=
        Nat.digits_def' (by norm_num) (Nat.pos_of_ne_zero h0)
      have hlt : n / 10 ≤ fuel := by
        have : n / 10 < n := Nat.div_lt_self (Nat.pos_of_ne_zero h0) (by norm_num)
        omega
      simp [toDecimal, h0, hdig, ih _ hlt]

theorem digitChar_inj_lt : ∀ a < 10, ∀ b < 10, Nat.digitChar a = Nat.digitChar b → a = b := by
  decide

theorem map_digitChar_inj : ∀ l₁ l₂ : List Nat, (∀ d ∈ l₁, d < 10) → (∀ d ∈ l₂, d < 10) →
    l₁.map Nat.digitChar = l₂.map Nat.digitChar → l₁ = l₂ := by
  intro l₁
  induction l₁ with
  | nil => intro l₂ _ _ h; cases l₂ <;> simp_all
  | cons a t ih =>
    intro l₂ h₁ h₂ h
    cases l₂ with
    | nil => simp_all
    | cons b t₂ =>
      simp only [List.map_cons, List.cons.injEq] at h
      have ha : a < 10 := h₁ a (by simp)
      have hb : b < 10 := h₂ b (by simp)
      have := digitChar_inj_lt a ha b hb h.1
      have ht := ih t₂ (fun d hd => h₁ d (by simp [hd])) (fun d hd => h₂ d (by simp [hd])) h.2
      simp [this, ht]

theorem digits_map_eq_zero_char {m : Nat} (h : (Nat.digits 10 m).map Nat.digitChar = ['0']) :
    m = 0 := by
  have digs : ∀ d ∈ Nat.digits 10 m, d < 10 := fun d hd => Nat.digits_lt_base (by norm_num) hd
  have h0 : (Nat.digits 10 m).map Nat.digitChar = [Nat.digitChar 0] := by simpa using h
  have hd : Nat.digits 10 m = [0] := map_digitChar_inj _ _ digs (by decide) h0
  have hm := Nat.ofDigits_digits 10 m
  rw [hd] at hm
  simpa [Nat.ofDigits] using hm.symm

theorem natRepr_inj : Function.Injective natRepr := by
  intro a b h
  unfold natRepr at h
  have digs : ∀ m : Nat, ∀ d ∈ Nat.digits 10 m, d < 10 := by
    intro m d hd; exact Nat.digits_lt_base (by norm_num) hd
  by_cases ha : a = 0 <;> by_cases hb : b = 0
  · omega
  · exfalso
    simp only [ha, if_pos rfl, if_neg hb] at h
    have hdata : ("0" : String).data = toDecimal b b := congrArg String.data h
    rw [toDecimal_eq b b le_rfl] at hdata
    have : (Nat.digits 10 b).map Nat.digitChar = ['0'] := by
      have := congrArg List.reverse hdata
      simpa using this.symm
    exact hb (digits_map_eq_zero_char this)
  · exfalso
    simp only [hb, if_pos rfl, if_neg ha] at h
    have hdata : toDecimal a a = ("0" : String).data := congrArg String.data h
    rw [toDecimal_eq a a le_rfl] at hdata
    have : (Nat.digits 10 a).map Nat.digitChar = ['0'] := by
      have := congrArg List.reverse hdata
      simpa using this
    exact ha (digits_map_eq_zero_char this)
  · simp only [if_neg ha, if_neg hb] at h
    have hdata : toDecimal a a = toDecimal b b := congrArg String.data h
    rw [toDecimal_eq a a le_rfl, toDecimal_eq b b le_rfl] at hdata
    have : (Nat.digits 10 a).map Nat.digitChar = (Nat.digits 10 b).map Nat.digitChar := by
      have := congrArg List.reverse hdata
      simpa using this
    have := map_digitChar_inj _ _ (digs a) (digs b) this
    exact Nat.digits.injective 10 this

theorem natRepr_ne_empty (n : Nat) : natRepr n ≠ "" := by
  unfold natRepr
  by_cases h : n = 0
  · simp [h]
  · simp only [if_neg h]
    intro hc
    have hdata := congrArg String.data hc
    rw [toDecimal_eq n n le_rfl] at hdata
    simp at hdata
    have hm := Nat.ofDigits_digits 10 n
    rw [hdata] at hm
    simp [Nat.ofDigits] at hm
    exact h hm.symm

theorem slugCand_inj (base : String) : Function.Injective (slugCand base) := by
  intro i j h
  match i, j with
  | 0, 0 => rfl
  | 0, j + 1 =>
    exfalso
    have hl := congrArg String.length h
    have h1 : ("-" : String).length = 1 := rfl
    simp only [slugCand, String.length_append, h1] at hl
    omega
  | i + 1, 0 =>
    exfalso
    have hl := congrArg String.length h
    have h1 : ("-" : String).length = 1 := rfl
    simp only [slugCand, String.length_append, h1] at hl
    omega
  | i + 1, j + 1 =>
    simp only [slugCand] at h
    have hdata := congrArg String.data h
    simp only [String.data_append] at hdata
    have h2 : (natRepr (i + 1)).data = (natRepr (j + 1)).data :=
      List.append_cancel_left hdata
    have := natRepr_inj (String.ext h2)
    omega

theorem exists_free_cand (taken : List String) (base : String) :
    ∃ j, j < taken.length + 1 ∧ slugCand base j ∉ taken := by
  by_contra hc
  push_neg at hc
  set l := (List.range (taken.length + 1)).map (slugCand base) with hl
  have hnd : l.Nodup := (List.nodup_range _).map (slugCand_inj base)
  have hsub : l.toFinset ⊆ taken.toFinset := by
    intro x hx
    rw [List.mem_toFinset] at hx ⊢
    rw [hl, List.mem_map] at hx
    obtain ⟨j, hj, rfl⟩ := hx
    exact hc j (List.mem_range.mp hj)
  have h1 : l.toFinset.card = l.length := List.toFinset_card_of_nodup hnd
  have h2 : l.length = taken.length + 1 := by simp [hl]
  have h3 : taken.toFinset.card ≤ taken.length := List.toFinset_card_le taken
  have := Finset.card_le_card hsub
  omega

theorem probeSlug_spec (taken : List String) (base : String) :
    ∀ fuel i, (∃ j, i ≤ j ∧ j < i + fuel ∧ slugCand base j ∉ taken) →
    ∃ k, i ≤ k ∧ slugCand base k ∉ taken ∧
      probeSlug taken base fuel (slugCand base i) (i + 1) = slugCand base k ∧
      ∀ j, i ≤ j → j < k → slugCand base j ∈ taken := by
  intro fuel
  induction fuel with
  | zero => intro i ⟨j, hj1, hj2, _⟩; omega
  | succ fuel ih =>
    intro i hex
    by_cases hmem : slugCand base i ∈ taken
    · have hstep : probeSlug taken base (fuel + 1) (slugCand base i) (i + 1) =
          probeSlug taken base fuel (slugCand base (i + 1)) (i + 1 + 1) := by
        simp only [probeSlug, if_pos hmem]
        rfl
      obtain ⟨j, hj1, hj2, hj3⟩ := hex
      have hex2 : ∃ j, i + 1 ≤ j ∧ j < (i + 1) + fuel ∧ slugCand base j ∉ taken := by
        refine ⟨j, ?_, by omega, hj3⟩
        rcases Nat.eq_or_lt_of_le hj1 with h | h
        · exact absurd hmem (h ▸ hj3)
        · omega
      obtain ⟨k, hk1, hk2, hk3, hk4⟩ := ih (i + 1) hex2
      refine ⟨k, by omega, hk2, hstep.trans hk3, ?_⟩
      intro j hij hjk
      rcases Nat.eq_or_lt_of_le hij with h | h
      · exact h ▸ hmem
      · exact hk4 j h hjk
    · exact ⟨i, le_rfl, hmem, by simp only [probeSlug, if_neg hmem], fun j h1 h2 => by omega⟩

theorem findUniqueSlug_spec (taken : List String) (base : String) :
    ∃ k, findUniqueSlug taken base = slugCand base k ∧ slugCand base k ∉ taken ∧
      ∀ j, j < k → slugCand base j ∈ taken := by
  obtain ⟨j, hj1, hj2⟩ := exists_free_cand taken base
  obtain ⟨k, _, hk2, hk3, hk4⟩ :=
    probeSlug_spec taken base (taken.length + 1) 0 ⟨j, Nat.zero_le j, by omega, hj2⟩
  exact ⟨k, hk3, hk2, fun j hj => hk4 j (Nat.zero_le j) hj⟩

theorem findUniqueSlug_not_mem (taken : List String) (base : String) :
    findUniqueSlug taken base ∉ taken := by
  obtain ⟨k, hk1, hk2, _⟩ := findUniqueSlug_spec taken base
  rw [hk1]
  exact hk2

/-! ## Claim theorems -/

/-- C1: after any product save, a non-empty `categories` list forces the
legacy `category` field to equal its first element; the synchronizing
hook runs on every save, not only when categories changed (the statement
quantifies over arbitrary saves with no modification assumption). -/
theorem claim_C1 (taken : List String) (nameModified : Bool) (p : Product)
    (c : Id) (cs : List Id)
    (h : (productSave taken nameModified p).categories = c :: cs) :
    (productSave taken nameModified p).category = some c := by
  cases hp : p.categories with
  | nil =>
    exfalso
    simp only [productSave, slugHook, categorySyncHook, hp] at h
    split at h <;> simp_all
  | cons c2 cs2 =>
    simp only [productSave, slugHook, categorySyncHook, hp] at h ⊢
    split at h <;> split <;> simp_all

/-- Witness for C1 at a concrete save. -/
theorem claim_C1_witness :
    (productSave [] true exProduct).categories = "c1" :: ["c2"] ∧
      (productSave [] true exProduct).category = some "c1" :=
  ⟨by decide, claim_C1 [] true exProduct "c1" ["c2"] (by decide)⟩

/-- C3: the slug pipeline is a function of the name (deterministic); the
probe returns the first candidate of `base`, `base-1`, `base-2`, … free
among the slugs taken by other products, hence never collides; the slug
hook fires only on a modified name, leaving a save with an unmodified
name slug-untouched; and the two same-named fixture products receive
`red-dress` and `red-dress-1`. -/
theorem claim_C3 :
    (∀ taken base, findUniqueSlug taken base ∉ taken) ∧
    (∀ taken base, ∃ k, findUniqueSlug taken base = slugCand base k ∧
        slugCand base k ∉ taken ∧ ∀ j, j < k → slugCand base j ∈ taken) ∧
    (∀ taken p, productSave taken false p = categorySyncHook p) ∧
    slugify "Red Dress" = "red-dress" ∧
    exSaved.slug = some "red-dress" ∧ exSaved2.slug = some "red-dress-1" := by
  refine ⟨findUniqueSlug_not_mem, findUniqueSlug_spec, ?_, by decide, by decide, by decide⟩
  intro taken p
  simp [productSave, slugHook]

/-- Witness for C3: the collision-freedom conjunct applied at a taken
base slug. -/
theorem claim_C3_witness :
    findUniqueSlug ["red-dress"] "red-dress" ∉ (["red-dress"] : List String) :=
  claim_C3.1 ["red-dress"] "red-dress"

/-- C8: a category-filtered product listing returns exactly the available
stored products whose legacy single `category` field equals the filter id
or whose `categories` array contains it — a logical OR — both for the
general listing filter and for the by-category route. -/
theorem claim_C8 (store : List Product) (c : Id) (p : Product) :
    (p ∈ listProducts store { category := some c } ↔
      p ∈ store ∧ p.isAvailable = true ∧ (p.category = some c ∨ c ∈ p.categories)) ∧
    (p ∈ listProductsByCategory store c ↔
      p ∈ store ∧ p.isAvailable = true ∧ (p.category = some c ∨ c ∈ p.categories)) := by
  constructor
  · rw [listProducts, List.mem_filter]
    simp [matchesProductFilter]
  · rw [listProductsByCategory, List.mem_filter]
    simp
    tauto

theorem processItems_spec (lookup : Id → Option Product) :
    ∀ (items : List OrderItemInput) (its : List OrderItem) (st : ℚ),
    processItems lookup items = .ok (its, st) →
    List.Forall₂ (ItemSpec lookup) items its ∧ st = (its.map (fun it => it.totalPrice)).sum := by
  intro items
  induction items with
  | nil =>
    intro its st h
    simp [processItems] at h
    obtain ⟨h1, h2⟩ := h
    subst h1
    simp [← h2]
  | cons item rest ih =>
    intro its st h
    cases hl : lookup item.product with
    | none => simp [processItems, hl] at h
    | some p =>
      cases hav : p.isAvailable with
      | false => simp [processItems, hl, hav] at h
      | true =>
        cases hr : processItems lookup rest with
        | error e => simp [processItems, hl, hav, hr] at h
        | ok pair =>
          obtain ⟨tailItems, tailSub⟩ := pair
          simp only [processItems, hl, hav, Bool.not_true, Bool.false_eq_true, if_false,
            Except.ok.injEq, Prod.mk.injEq, hr] at h
          obtain ⟨hits, hst⟩ := h
          obtain ⟨hf, hsum⟩ := ih tailItems tailSub hr
          subst hits
          constructor
          · exact List.Forall₂.cons ⟨p, hl, hav, rfl, rfl, rfl, rfl, rfl⟩ hf
          · simp [← hst, hsum]

/-- C2: whenever order creation (authenticated or guest) succeeds, every
line is priced `product.price * quantity * 1` with the rental duration
overridden to 1 day and the price snapshotted from the product; the
subtotal is the sum of the line totals; shipping is 0 over a subtotal of
100 and 10 otherwise; tax is 8% of the subtotal; and the total is their
sum. -/
theorem claim_C2 (lookup : Id → Option Product) (today : Int) (newId : Id)
    (uid : Id) (items : List OrderItemInput) (start end_ need : Int)
    (notes : Option String) (o : Order)
    (h : createOrder lookup today newId uid items start end_ need notes = .ok o ∨
         createGuestOrder lookup today newId items start end_ need notes = .ok o) :
    List.Forall₂ (ItemSpec lookup) items o.items ∧
    o.subtotal = (o.items.map (fun it => it.totalPrice)).sum ∧
    o.shippingCost = (if o.subtotal > 100 then 0 else 10) ∧
    o.tax = o.subtotal * 0.08 ∧
    o.totalAmount = o.subtotal + o.shippingCost + o.tax := by
  have hcore : ∃ user isGuest,
      createOrderCore lookup today newId user isGuest items start end_ need notes = .ok o := by
    rcases h with h | h
    · exact ⟨some uid, false, h⟩
    · exact ⟨none, true, h⟩
  obtain ⟨user, isGuest, h⟩ := hcore
  unfold createOrderCore at h
  cases hv : validateOrderDates today start end_ need with
  | some e => rw [hv] at h; exact absurd h (by simp)
  | none =>
    rw [hv] at h
    cases hp : processItems lookup items with
    | error e => rw [hp] at h; exact absurd h (by simp)
    | ok pair =>
      obtain ⟨its, st⟩ := pair
      rw [hp] at h
      simp only [Except.ok.injEq] at h
      obtain ⟨hf, hsum⟩ := processItems_spec lookup items its st hp
      subst h
      refine ⟨hf, by simpa using hsum, by simp [shippingFor], by simp [taxFor], by simp⟩

/-- Witness for C2: prices 40 and 70 with quantities 1 and 1 give
subtotal 110, free shipping, tax 8.8 and total 118.8; the last conjunct
is the general theorem applied to this concrete request. -/
theorem claim_C2_witness :
    createOrder exLookup 0 "o1" "u1" exItems 10 11 10 none = .ok exCreatedOrder ∧
      exCreatedOrder.subtotal = 110 ∧ exCreatedOrder.shippingCost = 0 ∧
      exCreatedOrder.tax = 8.8 ∧ exCreatedOrder.totalAmount = 118.8 ∧
      exCreatedOrder.totalAmount =
        exCreatedOrder.subtotal + exCreatedOrder.shippingCost + exCreatedOrder.tax := by
  have h : createOrder exLookup 0 "o1" "u1" exItems 10 11 10 none = .ok exCreatedOrder := by
    have ne21 : (("p2" : String) = "p1") = False := by simp
    norm_num [createOrder, createOrderCore, validateOrderDates, processItems, exLookup, exItems,
      exProduct, exProduct2, shippingFor, taxFor, exCreatedOrder, ne21]
  have hmain := claim_C2 exLookup 0 "o1" "u1" exItems 10 11 10 none exCreatedOrder (Or.inl h)
  refine ⟨h, by norm_num [exCreatedOrder], by norm_num [exCreatedOrder],
    by norm_num [exCreatedOrder], by norm_num [exCreatedOrder], hmain.2.2.2.2⟩

/-- C4: order creation (authenticated or guest) returns a date
business-rule error — and hence persists no order — whenever the start
date is strictly before today, the end date is not strictly after the
start date, or the need date is before today; in particular
`rentalEndDate ≤ rentalStartDate` always fails. -/
theorem claim_C4 (lookup : Id → Option Product) (today : Int) (newId : Id)
    (uid : Id) (items : List OrderItemInput) (start end_ need : Int)
    (notes : Option String)
    (h : start < today ∨ end_ ≤ start ∨ need < today) :
    ∃ e, e ∈ [CreateOrderError.startDateInPast, CreateOrderError.endDateNotAfterStart,
        CreateOrderError.needDateInPast] ∧
      createOrder lookup today newId uid items start end_ need notes = .error e ∧
      createGuestOrder lookup today newId items start end_ need notes = .error e := by
  have hv : ∃ e, e ∈ [CreateOrderError.startDateInPast, CreateOrderError.endDateNotAfterStart,
      CreateOrderError.needDateInPast] ∧ validateOrderDates today start end_ need = some e := by
    unfold validateOrderDates
    by_cases h1 : start < today
    · exact ⟨.startDateInPast, by simp, by simp [h1]⟩
    · by_cases h2 : end_ ≤ start
      · exact ⟨.endDateNotAfterStart, by simp, by simp [h1, h2]⟩
      · have h3 : need < today := by tauto
        exact ⟨.needDateInPast, by simp, by simp [h1, h2, h3]⟩
  obtain ⟨e, hmem, hv⟩ := hv
  exact ⟨e, hmem, by simp [createOrder, createOrderCore, hv], by
    simp [createGuestOrder, createOrderCore, hv]⟩

/-- Witness for C4: a request with `rentalEndDate = rentalStartDate` is
rejected on both entry points. -/
theorem claim_C4_witness :
    ∃ e, e ∈ [CreateOrderError.startDateInPast, CreateOrderError.endDateNotAfterStart,
        CreateOrderError.needDateInPast] ∧
      createOrder exLookup 0 "o1" "u1" exItems 10 10 10 none = .error e ∧
      createGuestOrder exLookup 0 "o1" exItems 10 10 10 none = .error e :=
  claim_C4 exLookup 0 "o1" "u1" exItems 10 10 10 none (Or.inr (Or.inl le_rfl))

/-- C5: cancellation of a found order succeeds exactly when the requester
is the order's owner or an admin and the current status is Pending or
Confirmed; on any failure the stored order is unchanged; on success the
status becomes Cancelled and an admin actor supplying no note gets the
default note recorded. -/
theorem claim_C5 (requester : Requester) (order : Order) (note : Option String) :
    ((cancelOrder requester order note).isOk = true ↔
      ((requester.role = "admin" ∨ order.user = some requester.id) ∧
        order.orderStatus ∈ ["Pending", "Confirmed"])) ∧
    (order.orderStatus ∉ ["Pending", "Confirmed"] →
      cancelResultState requester order note = order) ∧
    (∀ o2, cancelOrder requester order note = .ok o2 →
      o2.orderStatus = "Cancelled" ∧
        (requester.role = "admin" → note = none →
          o2.adminNotes = some "Order cancelled by admin")) := by
  refine ⟨?_, ?_, ?_⟩
  · by_cases hadm : requester.role = "admin"
    · by_cases hst : order.orderStatus ∈ ["Pending", "Confirmed"]
      · simp [cancelOrder, hadm, cancelOrderStatusStep, hst, Except.isOk] at *
        tauto
      · simp [cancelOrder, hadm, cancelOrderStatusStep, hst, Except.isOk] at *
        tauto
    · cases hu : order.user with
      | none => simp [cancelOrder, hadm, hu, Except.isOk]; tauto
      | some uid =>
        by_cases howner : uid = requester.id
        · subst howner
          by_cases hst : order.orderStatus ∈ ["Pending", "Confirmed"] <;>
            simp [cancelOrder, hadm, hu, cancelOrderStatusStep, hst, Except.isOk] at * <;>
            tauto
        · simp [cancelOrder, hadm, hu, howner, Except.isOk]
          tauto
  · intro hst
    by_cases hadm : requester.role = "admin"
    · simp [cancelResultState, cancelOrder, hadm, cancelOrderStatusStep, hst]
    · cases hu : order.user with
      | none => simp [cancelResultState, cancelOrder, hadm, hu]
      | some uid =>
        by_cases howner : uid = requester.id
        · subst howner
          simp [cancelResultState, cancelOrder, hadm, hu, cancelOrderStatusStep, hst]
        · simp [cancelResultState, cancelOrder, hadm, hu, howner]
  · intro o2 h
    by_cases hadm : requester.role = "admin"
    · by_cases hst : order.orderStatus ∈ ["Pending", "Confirmed"]
      · simp only [cancelOrder, hadm, cancelOrderStatusStep, hst] at h
        simp at h
        cases note with
        | none => simp_all [← h]
        | some s => simp_all [← h]
      · simp [cancelOrder, hadm, cancelOrderStatusStep, hst] at h
    · cases hu : order.user with
      | none => simp [cancelOrder, hadm, hu] at h
      | some uid =>
        by_cases howner : uid = requester.id
        · subst howner
          by_cases hst : order.orderStatus ∈ ["Pending", "Confirmed"]
          · simp only [cancelOrder, hadm, hu, cancelOrderStatusStep, hst] at h
            simp [hadm] at h
            simp_all [← h]
          · simp [cancelOrder, hadm, hu, cancelOrderStatusStep, hst] at h
        · simp [cancelOrder, hadm, hu, howner] at h

/-- Witness for C5: an admin cancelling the pending fixture order with no
note succeeds, flips the status and records the default admin note. -/
theorem claim_C5_witness :
    ∃ o2, cancelOrder { id := "a1", role := "admin" } exOrder none = .ok o2 ∧
      o2.orderStatus = "Cancelled" ∧ o2.adminNotes = some "Order cancelled by admin" := by
  have h : cancelOrder { id := "a1", role := "admin" } exOrder none =
      .ok { exOrder with orderStatus := "Cancelled", adminNotes := some "Order cancelled by admin" } := by
    simp [cancelOrder, cancelOrderStatusStep, exOrder]
  obtain ⟨h1, h2⟩ := (claim_C5 { id := "a1", role := "admin" } exOrder none).2.2 _ h
  exact ⟨_, h, h1, h2 rfl rfl⟩

/-- Counterexample to C6 as stated: an order that is Pending but Paid is
counted by the claim's predicate (`specRevenue`) yet contributes nothing
to the revenue the code computes, which matches `['Delivered', 'Paid']`
against the `orderStatus` field only. -/
theorem claim_C6_counterexample :
    specRevenue [exPaidOrder] = 50 ∧ totalRevenue [exPaidOrder] = 0 := by
  constructor
  · norm_num [specRevenue, exPaidOrder, exOrder]
  · rfl

/-- C6 (amended): the revenue aggregation keeps the orders whose
`orderStatus` — not `paymentStatus` — is Delivered or Paid; under the
schema enum (which has no Paid order status) this is exactly the
Delivered orders, so paymentStatus never contributes. -/
theorem claim_C6 (orders : List Order)
    (h : ∀ o ∈ orders, o.orderStatus ∈ orderStatusEnum) :
    totalRevenue orders =
      ((orders.filter (fun o => o.orderStatus = "Delivered")).map
        (fun o => o.totalAmount)).sum := by
  unfold totalRevenue
  have hcongr : ∀ o ∈ orders, revenueMatch o = decide (o.orderStatus = "Delivered") := by
    intro o ho
    have := h o ho
    simp [orderStatusEnum] at this
    rcases this with h1 | h1 | h1 | h1 | h1 | h1 | h1 <;> simp [revenueMatch, h1]
  rw [List.filter_congr hcongr]

/-- Witness for C6 (amended) over a mixed store: only the Delivered
order's 30 is counted; the Paid-but-Pending 50 is not. -/
theorem claim_C6_witness :
    totalRevenue [exPaidOrder, exDelivered] =
      (([exPaidOrder, exDelivered].filter (fun o => o.orderStatus = "Delivered")).map
        (fun o => o.totalAmount)).sum :=
  claim_C6 [exPaidOrder, exDelivered] (by decide)

theorem validateCategories_ok (catExists : Id → Bool) (cats : List (Option Id))
    (l : List Id) (h : validateCategories catExists cats = .ok l) :
    l = filterCategories cats ∧ l ≠ [] := by
  unfold validateCategories at h
  by_cases he : filterCategories cats = []
  · simp [he] at h
  · simp only [he, if_false] at h
    cases hf : (filterCategories cats).find? (fun c => !catExists c) with
    | none =>
      rw [hf] at h
      simp only [Except.ok.injEq] at h
      exact ⟨h.symm, fun hc => he (hc ▸ h)⟩
    | some c => rw [hf] at h; simp at h

/-- C7: the create and update product operations drop null/undefined
entries from a received categories list, reject the request when the
filtered list is empty, and on success always persist the non-empty
filtered list — no product is ever persisted with an empty categories
set through them. -/
theorem claim_C7 :
    (∀ cats, filterCategories (none :: cats) = filterCategories cats) ∧
    (∀ cats (s : Id), s ≠ "" → filterCategories (some s :: cats) = s :: filterCategories cats) ∧
    (∀ (catExists : Id → Bool) cats, filterCategories cats = [] →
      validateCategories catExists cats = .error .emptyCategories) ∧
    (∀ (catExists : Id → Bool) taken newId name cats price sizes feat q,
      createProduct catExists taken newId name cats price sizes feat = .ok q →
      q.categories = filterCategories cats ∧ q.categories ≠ []) ∧
    (∀ (catExists : Id → Bool) p b q cats, b.categories = some cats →
      updateProduct catExists p b = .ok q →
      q.categories = filterCategories cats ∧ q.categories ≠ []) := by
  refine ⟨?_, ?_, ?_, ?_, ?_⟩
  · intro cats; simp [filterCategories]
  · intro cats s hs; simp [filterCategories, hs]
  · intro catExists cats h; simp [validateCategories, h]
  · intro catExists taken newId name cats price sizes feat q h
    unfold createProduct at h
    cases hv : validateCategories catExists cats with
    | error e => rw [hv] at h; exact absurd h (by simp)
    | ok filtered =>
      rw [hv] at h
      obtain ⟨hfe, hne⟩ := validateCategories_ok catExists cats filtered hv
      simp only [Except.ok.injEq] at h
      have hq : q.categories = filtered := by
        rw [← h]
        simp [productSave, slugHook, categorySyncHook]
        cases filtered <;> simp
      exact ⟨hq ▸ hfe ▸ rfl, by rw [hq, hfe] at *; exact hfe ▸ hne⟩
  · intro catExists p b q cats hb h
    unfold updateProduct at h
    cases hv : validateCategories catExists cats with
    | error e => simp [hb, hv] at h
    | ok filtered =>
      simp only [hb, hv, Except.ok.injEq] at h
      obtain ⟨hfe, hne⟩ := validateCategories_ok catExists cats filtered hv
      have hq : q.categories = filtered := by rw [← h]; simp [findByIdAndUpdate]
      exact ⟨hq.trans hfe, hq ▸ hne⟩

/-- Witness for C7: creating a product whose categories list is
`[null, "c1"]` succeeds with the filtered non-empty list `["c1"]`. -/
theorem claim_C7_witness :
    ∃ q, createProduct (fun _ => true) [] "p9" "Gown" [none, some "c1"] 5 [] false = .ok q ∧
      q.categories = filterCategories [none, some "c1"] ∧ q.categories ≠ [] := by
  have h : createProduct (fun _ => true) [] "p9" "Gown" [none, some "c1"] 5 [] false =
      .ok (productSave [] true
        { id := "p9", name := "Gown", categories := ["c1"], category := none, price := 5
          sizes := [], isAvailable := true, isFeatured := false, slug := none, views := 0 }) := rfl
  exact ⟨_, h, claim_C7.2.2.2.1 _ _ _ _ _ _ _ _ _ h⟩

/-- C9: the product update endpoint persists the request body through
`findByIdAndUpdate`, bypassing the save hooks: when the body carries no
explicit `category` or `slug` field, an update — even one changing
`categories` or `name` — leaves the stored legacy `category` and the
stored `slug` exactly as they were. -/
theorem claim_C9 (catExists : Id → Bool) (p : Product) (b : UpdateBody) (q : Product)
    (hcat : b.category = none) (hslug : b.slug = none)
    (h : updateProduct catExists p b = .ok q) :
    q.category = p.category ∧ q.slug = p.slug := by
  unfold updateProduct at h
  cases hb : b.categories with
  | none =>
    simp only [hb, Except.ok.injEq] at h
    rw [← h]
    simp [findByIdAndUpdate, hcat, hslug]
  | some cats =>
    cases hv : validateCategories catExists cats with
    | error e => simp [hb, hv] at h
    | ok filtered =>
      simp only [hb, hv, Except.ok.injEq] at h
      rw [← h]
      simp [findByIdAndUpdate, hcat, hslug]

/-- Witness for C9: updating the saved fixture product with a new name
and new categories leaves its synced `category` (c1) and its generated
slug (red-dress) untouched. -/
theorem claim_C9_witness :
    ∃ q, updateProduct (fun _ => true) exSaved exBody = .ok q ∧
      q.category = exSaved.category ∧ q.slug = exSaved.slug ∧
      exSaved.category = some "c1" ∧ exSaved.slug = some "red-dress" := by
  have h : updateProduct (fun _ => true) exSaved exBody =
      .ok (findByIdAndUpdate exSaved (some ["c2"]) exBody) := rfl
  obtain ⟨h1, h2⟩ := claim_C9 (fun _ => true) exSaved exBody _ rfl rfl h
  exact ⟨_, h, h1, h2, by decide, by decide⟩

/-- C10: for a guest order (null `user`, guest flag set), a get-by-id or
cancel request by any authenticated non-admin dereferences the null user
reference and lands in the generic internal-error (500) branch — not the
access-denied branch — while an admin reads it successfully and can
cancel it subject only to the status gate. -/
theorem claim_C10 (requester : Requester) (order : Order) (note : Option String)
    (hguest : order.user = none) (_hflag : order.isGuestOrder = true) :
    (requester.role ≠ "admin" →
      getOrderById requester order = .error .internalError ∧
      cancelOrder requester order note = .error .internalError) ∧
    (requester.role = "admin" →
      getOrderById requester order = .ok order ∧
      ((cancelOrder requester order note).isOk = true ↔
        order.orderStatus ∈ ["Pending", "Confirmed"])) := by
  constructor
  · intro hadm
    exact ⟨by simp [getOrderById, hadm, hguest], by simp [cancelOrder, hadm, hguest]⟩
  · intro hadm
    refine ⟨by simp [getOrderById, hadm], ?_⟩
    by_cases hst : order.orderStatus ∈ ["Pending", "Confirmed"] <;>
      simp [cancelOrder, hadm, cancelOrderStatusStep, hst, Except.isOk, Except.toBool]

/-- Witness for C10: a non-admin fetching or cancelling the guest fixture
order hits the internal-error branch; an admin fetches it. -/
theorem claim_C10_witness :
    getOrderById { id := "u2", role := "user" } exGuestOrder = .error .internalError ∧
    cancelOrder { id := "u2", role := "user" } exGuestOrder none = .error .internalError ∧
    getOrderById { id := "a1", role := "admin" } exGuestOrder = .ok exGuestOrder := by
  have h1 := claim_C10 { id := "u2", role := "user" } exGuestOrder none rfl rfl
  have h2 := claim_C10 { id := "a1", role := "admin" } exGuestOrder none rfl rfl
  exact ⟨(h1.1 (by decide)).1, (h1.1 (by decide)).2, (h2.2 rfl).1⟩

end RentMoment
